import Mathlib

set_option maxRecDepth 200000

attribute [local semireducible] Rat.add Rat.mul Rat.inv Rat.sub

/-!
Verification of the performance-profile pipeline implemented in
`src/tools/perfprof/perfprof.py` and `src/tools/perfprof/plot.py`.

Numeric data is modelled over `ℚ` (the inputs exercised by the claims are
exactly representable in binary floating point, and the pipeline only uses
field operations, comparisons, `min`/`max` and decimal rounding, which agree
with IEEE-754 double arithmetic on these inputs).  Matrices are row-major
`List (List ℚ)`.  The shallow embedding follows the Python source line by
line; numpy reductions over an empty axis raise in Python, so their total
Lean counterparts (returning a junk value on `[]`) are only used under
nonemptiness hypotheses.
-/

/-- Minimum of a list, embedding `np.min` / `ndarray.min` over a nonempty
axis (`data.min()`, `data.min(axis=1)`).  numpy raises on an empty axis; the
`[]` case returns 0 and is only exercised under nonemptiness hypotheses. -/
def listMin : List ℚ → ℚ
  | [] => 0
  | x :: xs => xs.foldl min x

/-- Maximum of a list, embedding `np.max` / `ndarray.max` over a nonempty
axis (`data.max()`). -/
def listMax : List ℚ → ℚ
  | [] => 0
  | x :: xs => xs.foldl max x

/-- Global minimum of a matrix, embedding `data.min()` over all entries. -/
def matMin (m : List (List ℚ)) : ℚ := listMin m.flatten

/-- Global maximum of a matrix, embedding `data.max()` over all entries. -/
def matMax (m : List (List ℚ)) : ℚ := listMax m.flatten

/-- One row of `data = data + opt.shift` (perfprof.py line 181 /
plot.py line 264). -/
def shiftRow (shift : ℚ) (row : List ℚ) : List ℚ := row.map (· + shift)

/-- One row of the ratio step `data[:, j] = data[:, j] / minima`
(perfprof.py lines 187-189): every entry of the row is divided by the
row's own minimum. -/
def ratioRow (row : List ℚ) : List ℚ := row.map (· / listMin row)

/-- Data transform of perfprof.py `main` (lines 180-189): the shift is added
to every entry, and when `--plot-as-ratios` is set each row of the shifted
data is divided by its own (post-shift) minimum `minima = data.min(axis=1)`;
the column loop `data[:, j] = data[:, j] / minima` acts elementwise, row `i`
being divided by `minima[i]`. -/
def perfprofTransform (shift : ℚ) (asRatio : Bool) (raw : List (List ℚ)) :
    List (List ℚ) :=
  let d := raw.map (shiftRow shift)
  if asRatio then d.map ratioRow else d

/-- Data transform of plot.py `process_data` (lines 264-267):
`data = p.data + opt.shift; baseline = p.data.min(axis=1);
data[:, j] = data[:, j] / baseline`.  Note that the baseline is the minimum
of the raw, pre-shift row. -/
def plotNormalize (shift : ℚ) (raw : List (List ℚ)) : List (List ℚ) :=
  raw.map (fun row => row.map (fun v => (v + shift) / listMin row))

/-- Configuration surface of plot.py `process_data` (the argparse namespace
fields that determine numeric behaviour). -/
structure PlotOpt where
  raw_data : Bool
  shift : ℚ
  x_min : Option ℚ
  x_max : Option ℚ
  x_raw_lower_limit : Option ℚ
  x_raw_upper_limit : Option ℚ
deriving DecidableEq

/-- Output of plot.py `process_data`: resolved axis bounds plus the
processed matrix. -/
structure ProcessedData where
  x_min : ℚ
  x_max : ℚ
  data : List (List ℚ)
deriving DecidableEq

/-- Out-of-bound remap of one cell (plot.py lines 279-290): the upper check
runs first, the lower check second (so the lower sentinel wins when a
degenerate configuration makes both fire).  `rawv` is the raw (pre-shift,
pre-normalization) value, `v` the processed value. -/
def remapCell (lower upper : Option ℚ) (xmin xmax rawv v : ℚ) : ℚ :=
  let v1 := match upper with
    | some u => if u ≤ rawv then xmax + 1000000 else v
    | none => v
  match lower with
  | some l => if rawv ≤ l then xmin - 1000000 else v1
  | none => v1

/-- Stage-one data of plot.py `process_data` (lines 261-267): the raw copy in
`--raw-data` mode, otherwise the shifted data divided by the pre-shift row
minima. -/
def plotData0 (opt : PlotOpt) (raw : List (List ℚ)) : List (List ℚ) :=
  if opt.raw_data then raw else plotNormalize opt.shift raw

/-- plot.py `process_data` (lines 253-292): stage-one transform, axis-range
resolution (`x_min`/`x_max` from the command line when given, otherwise from
the transformed data), the degenerate-range guard
`if x_min >= x_max: x_max = x_min + 1.0`, and the out-of-bound remap driven
by the raw values. -/
def plotProcessData (opt : PlotOpt) (raw : List (List ℚ)) : ProcessedData :=
  let data0 := plotData0 opt raw
  let xmin := opt.x_min.getD (matMin data0)
  let xmax0 := opt.x_max.getD (matMax data0)
  let xmax := if xmax0 ≤ xmin then xmin + 1 else xmax0
  let data1 := List.zipWith
    (fun rrow drow => List.zipWith
      (fun rv dv => remapCell opt.x_raw_lower_limit opt.x_raw_upper_limit
        xmin xmax rv dv) rrow drow)
    raw data0
  ⟨xmin, xmax, data1⟩

/-- Axis-minimum resolution of perfprof.py `main` lines 197-198 in the
scalar (non-ratio) path: `if opt.x_min is None or opt.x_min <= -1e21:
opt.x_min = max(opt.x_lower_limit, data.min())`. -/
def perfprofResolveMin (xmin : Option ℚ) (lower dmin : ℚ) : ℚ :=
  match xmin with
  | none => max lower dmin
  | some v => if v ≤ -(10^21) then max lower dmin else v

/-- Axis-maximum resolution of perfprof.py `main` lines 200-201 in the
scalar (non-ratio) path: `if opt.x_max is None or opt.x_max >= 1e21:
opt.x_max = min(opt.x_upper_limit, data.max())`. -/
def perfprofResolveMax (xmax : Option ℚ) (upper dmax : ℚ) : ℚ :=
  match xmax with
  | none => min upper dmax
  | some v => if 10^21 ≤ v then min upper dmax else v

/-- Degenerate-range guard of perfprof.py lines 211-212:
`if opt.x_min == opt.x_max: opt.x_max = opt.x_min + 1.0` — it fires only on
exact equality, unlike plot.py's `>=` guard. -/
def perfprofGuard (xmin xmax : ℚ) : ℚ :=
  if xmin = xmax then xmin + 1 else xmax

/-! ### Table reading (perfprof.py `readTable`, plot.py `read_csv`)

The two readers are line-for-line identical: the first line is the header,
its first field is discarded and the remaining fields become the solver
names; each further line contributes its first field as an instance name and
the next `ncols` fields as float observations.  A row access `row[j]` beyond
the end raises `IndexError` and a non-float field raises `ValueError`; both
abort the read at the offending row. -/

/-- Python `str.strip()` restricted to ASCII whitespace (all the inputs under
analysis use only spaces, tabs, `\n` and `\r`). -/
def pyIsSpace (c : Char) : Bool :=
  c = ' ' || c = '\t' || c = '\n' || c = '\r'

/-- Python `str.strip()` on a string. -/
def pyStrip (s : String) : String :=
  String.mk (((s.data.dropWhile pyIsSpace).reverse.dropWhile pyIsSpace).reverse)

/-- Python `str.split(delim)` with an explicit one-character delimiter:
consecutive delimiters produce empty fields and the result is never empty. -/
def pySplit (d : Char) (s : String) : List String :=
  (s.data.splitOnP (· == d)).map String.mk

/-- The field list of one line: `row.strip().split(delimiter)` (perfprof.py
lines 150 and 156, plot.py lines 183 and 189). -/
def pyFields (d : Char) (line : String) : List String :=
  pySplit d (pyStrip line)

/-- The lines yielded by iterating a text file whose contents are `s`: a
trailing newline terminates the last line rather than opening an empty one
(the `\n` terminators themselves are removed later by `strip()`, so they are
dropped here). -/
def linesOf (s : String) : List String :=
  if s.data.isEmpty then []
  else
    let parts := (s.data.splitOnP (· == '\n')).map String.mk
    if s.data.getLast? = some '\n' then parts.dropLast else parts

/-- Python `float(s)` on the decimal literals used by the data under
analysis: an optional sign, digits, an optional fraction part.  Exponent,
`inf` and `nan` spellings are not needed by any claim and are rejected;
every rejected string also fails Python's parser or never occurs. -/
def pyFloatCore (cs : List Char) : Option ℚ :=
  let ip := cs.takeWhile (· ≠ '.')
  let rest := cs.dropWhile (· ≠ '.')
  match rest with
  | [] =>
    if ip ≠ [] ∧ ip.all Char.isDigit then
      some ((ip.foldl (fun a c => a * 10 + (c.toNat - 48)) 0 : ℕ) : ℚ)
    else none
  | _ :: fp =>
    if (ip ≠ [] ∨ fp ≠ []) ∧ ip.all Char.isDigit ∧ fp.all Char.isDigit then
      some (((ip.foldl (fun a c => a * 10 + (c.toNat - 48)) 0 : ℕ) : ℚ) +
        ((fp.foldl (fun a c => a * 10 + (c.toNat - 48)) 0 : ℕ) : ℚ) /
          10 ^ fp.length)
    else none

/-- Python `float(s)` (see `pyFloatCore`), with sign and surrounding
whitespace handling. -/
def pyFloat (s : String) : Option ℚ :=
  match (pyStrip s).data with
  | '+' :: cs => pyFloatCore cs
  | '-' :: cs => (pyFloatCore cs).map Neg.neg
  | cs => pyFloatCore cs

/-- The two exceptions a data row can raise while being read:
`row[j + 1]` out of range raises `IndexError`, `float(...)` on a non-numeric
field raises `ValueError` (perfprof.py lines 155-161 / plot.py 188-194). -/
inductive ParseError where
  | indexError : ParseError
  | valueError : ParseError
deriving DecidableEq

/-- The observation loop `for j in range(ncols): rdata[j] = float(row[j+1])`
read off one row, started at field index `j` with `n` observations still to
read.  The first failing access or conversion aborts the row. -/
def parseObs (fields : List String) : ℕ → ℕ → Except ParseError (List ℚ)
  | _, 0 => .ok []
  | j, n + 1 =>
    match fields.get? j with
    | none => .error .indexError
    | some s =>
      match pyFloat s with
      | none => .error .valueError
      | some q =>
        match parseObs fields (j + 1) n with
        | .error e => .error e
        | .ok r => .ok (q :: r)

/-- The data-row loop of `readTable`/`read_csv`: rows are consumed in order,
each contributing its first field as instance name and `ncols` parsed
observations.  On a failing row the error also reports the instance names
and data rows accumulated so far (the offending row's name is appended
before its observations are parsed, exactly as in the Python loop), showing
that no later line was read into the matrix. -/
def readRows (d : Char) (ncols : ℕ) :
    List String → Except (ParseError × List String × List (List ℚ))
      (List String × List (List ℚ))
  | [] => .ok ([], [])
  | line :: rest =>
    let fields := pyFields d line
    let name := fields.headD ""
    match parseObs fields 1 ncols with
    | .error e => .error (e, [name], [])
    | .ok r =>
      match readRows d ncols rest with
      | .error (e, ns, rs) => .error (e, name :: ns, r :: rs)
      | .ok (ns, rs) => .ok (name :: ns, r :: rs)

/-- perfprof.py `readTable` (lines 142-163) / plot.py `read_csv`
(lines 174-196): header first field discarded, remaining fields are solver
names, `ncols = len(firstline) - 1`; the result is
`(instance_names, solver_names, data)`. -/
def readTable (d : Char) (input : String) :
    Except (ParseError × List String × List (List ℚ))
      (List String × List String × List (List ℚ)) :=
  let lines := linesOf input
  let header := pyFields d (lines.headD "")
  match readRows d (header.length - 1) lines.tail with
  | .error ep => .error ep
  | .ok (rnames, rows) => .ok (rnames, header.tail, rows)

/-- Outcome of the shape check both `main`s run after parsing
(`data.shape == (0,)`): for a list-of-rows matrix the shape is `(0,)`
exactly when there are no data rows. -/
inductive EmptyGuardOutcome where
  | returnZero : EmptyGuardOutcome
  | fatalExit : ℤ → Bool → EmptyGuardOutcome
  | proceed : EmptyGuardOutcome
deriving DecidableEq

/-- perfprof.py `main` lines 176-177: `if data.shape == (0,): return` —
falling off `main` makes the interpreter exit with status 0 and prints
nothing; the transform below the check is never reached. -/
def perfprofEmptyGuard (rows : List (List ℚ)) : EmptyGuardOutcome :=
  if rows.isEmpty then .returnZero else .proceed

/-- plot.py `main` lines 391-393: on `data.shape == (0,)` an error message
is printed to stderr and `sys.exit(-1)` terminates the process before
`process_data` runs. -/
def plotEmptyGuard (rows : List (List ℚ)) : EmptyGuardOutcome :=
  if rows.isEmpty then .fatalExit (-1) true else .proceed

/-! ### Distribution builder (perfprof.py lines 214-217,
plot.py lines 317-320) -/

/-- Column-wise ascending sort `data.sort(axis=0)` of a row-major matrix
(perfprof.py line 215), presented column by column: entry `j` is solver
`j`'s sorted x-sequence. -/
def sortedCols (m : List (List ℚ)) : List (List ℚ) :=
  (List.range (m.headD []).length).map
    (fun j => List.insertionSort (· ≤ ·) (m.filterMap (fun row => row.get? j)))

/-- The shared y-sequence `y = np.arange(nrows) / nrows` (perfprof.py
line 217 / plot.py line 320). -/
def ySeq (n : ℕ) : List ℚ :=
  (List.range n).map (fun i : ℕ => (i : ℚ) / n)

/-- Return value of the expression `np.copy(p.data).sort(axis=0)` at
plot.py line 318: `ndarray.sort` sorts its receiver in place and returns
`None`, so the sorted copy is discarded and `x` is bound to `None`;
`x[:, j]` then raises `TypeError`. -/
def npCopySortReturn (_m : List (List ℚ)) : Option (List (List ℚ)) := none

/-! ### Tick generator (perfprof.py lines 40-52; plot.py lines 303-313 is
the same function with 3 rounding decimals instead of 2) -/

/-- Worker for `keepUniqs`: `seen` holds the values already emitted. -/
def keepUniqsAux (seen : List ℚ) : List ℚ → List ℚ
  | [] => []
  | x :: xs =>
    if x ∈ seen then keepUniqsAux seen xs
    else x :: keepUniqsAux (x :: seen) xs

/-- `remove_duplicates_from_list` / `list_keep_uniqs`
(`list(dict.fromkeys(x))`): keeps the first occurrence of each value, in
first-seen order. -/
def keepUniqs (l : List ℚ) : List ℚ := keepUniqsAux [] l

/-- `np.arange(start, stop, step)` over exact rationals: `⌈(stop-start)/step⌉`
evenly spaced samples from `start`, excluding `stop`. -/
def npArange (start stop step : ℚ) : List ℚ :=
  (List.range (Int.toNat ⌈(stop - start) / step⌉)).map
    (fun i : ℕ => start + (i : ℚ) * step)

/-- Round-half-to-even to an integer, the rounding Python's `round` applies
(ties and binary-representation artifacts of IEEE doubles do not arise for
the inputs under analysis). -/
def roundHalfEven (x : ℚ) : ℤ :=
  let f := ⌊x⌋
  let r := x - f
  if r < 1/2 then f
  else if 1/2 < r then f + 1
  else if Even f then f else f + 1

/-- Python `round(x, 2)` as used by perfprof.py's `get_plt_ticks`. -/
def pyRound2 (x : ℚ) : ℚ := (roundHalfEven (x * 100) : ℚ) / 100

/-- The widened upper bound of `get_plt_ticks`:
`if ub == lb: ub = lb + 1.0`. -/
def ubFix (lb ub : ℚ) : ℚ := if ub = lb then lb + 1 else ub

/-- The list `[lb, ub] + list(np.arange(lb, ub, step=(ub-lb)/cnt))` built by
`get_plt_ticks` before duplicate removal and rounding. -/
def ticksRawList (lb ub : ℚ) (cnt : ℕ) : List ℚ :=
  let u := ubFix lb ub
  [lb, u] ++ npArange lb u ((u - lb) / cnt)

/-- perfprof.py `get_plt_ticks` (lines 44-52): widen a degenerate range,
collect `[lb, ub]` plus the `arange` samples, drop duplicates (first-seen
order), then round each survivor to 2 decimals.  Rounding happens after
duplicate removal. -/
def get_plt_ticks (lb ub : ℚ) (cnt : ℕ) : List ℚ :=
  (keepUniqs (ticksRawList lb ub cnt)).map pyRound2

/-! ### numpy scalar/array semantics for perfprof.py's ratio branch
(lines 186-209)

With `--plot-as-ratios`, perfprof.py divides the command-line scalars
`x_lower_limit`, `x_upper_limit`, `x_min`, `x_max` and `eps` in place by
`minima = data.min(axis=1)`, an array of length `nrows`.  `None / array`
raises `TypeError`; a scalar divided by the array broadcasts to an array;
and using such an array where Python needs one truth value
(`opt.x_min <= -1e21` inside `if`, or `max(...)`/`min(...)` over it) raises
`ValueError: the truth value of an array with more than one element is
ambiguous` whenever `nrows ≠ 1`. -/

/-- A Python value flowing through perfprof.py's option fields: `None`, a
float scalar, or a numpy array. -/
inductive NpVal where
  | noneV : NpVal
  | scalar : ℚ → NpVal
  | arr : List ℚ → NpVal
deriving DecidableEq

/-- The two exceptions the ratio branch can raise. -/
inductive NpErr where
  | typeError : NpErr
  | ambiguousTruthValue : NpErr
deriving DecidableEq

/-- In-place division `v /= minima` of an option field by the row-minima
array (perfprof.py lines 190-194): `None` raises `TypeError`, a scalar
broadcasts, an array divides elementwise. -/
def npIDivArr (v : NpVal) (minima : List ℚ) : Except NpErr NpVal :=
  match v with
  | .noneV => .error .typeError
  | .scalar s => .ok (.arr (minima.map (fun m => s / m)))
  | .arr l => .ok (.arr (List.zipWith (· / ·) l minima))

/-- Truth value of `v <= c` as Python's `if`/`or` need it: a scalar compares
normally, a one-element array is squeezed (with a deprecation warning), and
any other array raises `ValueError`. -/
def npLeTruth (v : NpVal) (c : ℚ) : Except NpErr Bool :=
  match v with
  | .noneV => .error .typeError
  | .scalar s => .ok (decide (s ≤ c))
  | .arr [x] => .ok (decide (x ≤ c))
  | .arr _ => .error .ambiguousTruthValue

/-- Truth value of `c <= v`, mirror of `npLeTruth`. -/
def npGeTruth (v : NpVal) (c : ℚ) : Except NpErr Bool :=
  match v with
  | .noneV => .error .typeError
  | .scalar s => .ok (decide (c ≤ s))
  | .arr [x] => .ok (decide (c ≤ x))
  | .arr _ => .error .ambiguousTruthValue

/-- Python's builtin `max(a, b)` where `a` may be an array: it evaluates
`b > a`, which needs a single truth value. -/
def pyMaxNp (a : NpVal) (b : ℚ) : Except NpErr NpVal :=
  match a with
  | .noneV => .error .typeError
  | .scalar s => .ok (.scalar (max s b))
  | .arr [x] => .ok (if x < b then .scalar b else .arr [x])
  | .arr _ => .error .ambiguousTruthValue

/-- Python's builtin `min(a, b)` where `a` may be an array, mirror of
`pyMaxNp`. -/
def pyMinNp (a : NpVal) (b : ℚ) : Except NpErr NpVal :=
  match a with
  | .noneV => .error .typeError
  | .scalar s => .ok (.scalar (min s b))
  | .arr [x] => .ok (if b < x then .scalar b else .arr [x])
  | .arr _ => .error .ambiguousTruthValue

/-- perfprof.py `main` lines 186-201 in `--plot-as-ratios` mode, applied to
the already-shifted data: compute `minima`, normalize the rows, divide the
four option scalars and `eps` by the minima array, then resolve `x_min` and
`x_max`.  The out-of-bound remap of lines 203-209 (whose comparisons
`data[i, j] >= opt.x_upper_limit` would raise the same `ValueError`) is only
reached if resolution returns, which for `nrows > 1` it never does. -/
def perfprofRatioPhase (shifted : List (List ℚ))
    (xlo xhi xmin xmax : NpVal) : Except NpErr (NpVal × NpVal) := do
  let minima := shifted.map listMin
  let dataN := shifted.map ratioRow
  let xlo1 ← npIDivArr xlo minima
  let _xhi1 ← npIDivArr xhi minima
  let xmin1 ← npIDivArr xmin minima
  let xmax1 ← npIDivArr xmax minima
  let _eps1 ← npIDivArr (NpVal.scalar 1000000) minima
  let bmin ← match xmin1 with
    | NpVal.noneV => pure true
    | v => npLeTruth v (-(10^21))
  let xminF ← if bmin then pyMaxNp xlo1 (matMin dataN) else pure xmin1
  let bmax ← match xmax1 with
    | NpVal.noneV => pure true
    | v => npGeTruth v (10^21)
  let xmaxF ← if bmax then pyMinNp _xhi1 (matMax dataN) else pure xmax1
  pure (xminF, xmaxF)

/-! ### Order lemmas for `listMin`/`listMax` -/

lemma foldl_min_le_init (xs : List ℚ) (a : ℚ) : xs.foldl min a ≤ a := by
  induction xs generalizing a with
  | nil => simp
  | cons y ys ih =>
    simpa using le_trans (ih (min a y)) (min_le_left a y)

lemma foldl_min_le_mem (xs : List ℚ) (a x : ℚ) (hx : x ∈ xs) :
    xs.foldl min a ≤ x := by
  induction xs generalizing a with
  | nil => cases hx
  | cons y ys ih =>
    rcases List.mem_cons.mp hx with h | h
    · subst h
      simpa using le_trans (foldl_min_le_init ys (min a x)) (min_le_right a x)
    · simpa using ih (min a y) h

lemma listMin_le (l : List ℚ) (x : ℚ) (hx : x ∈ l) : listMin l ≤ x := by
  cases l with
  | nil => cases hx
  | cons y ys =>
    rcases List.mem_cons.mp hx with h | h
    · subst h; exact foldl_min_le_init ys x
    · exact foldl_min_le_mem ys y x h

lemma foldl_min_mem (xs : List ℚ) (a : ℚ) : xs.foldl min a ∈ a :: xs := by
  induction xs generalizing a with
  | nil => simp
  | cons y ys ih =>
    have h := ih (min a y)
    simp only [List.foldl_cons]
    rcases List.mem_cons.mp h with h' | h'
    · rcases min_choice a y with hc | hc
      · rw [h', hc]; exact List.mem_cons_self _ _
      · rw [h', hc]; exact List.mem_cons_of_mem _ (List.mem_cons_self _ _)
    · exact List.mem_cons_of_mem _ (List.mem_cons_of_mem _ h')

lemma listMin_mem (l : List ℚ) (h : l ≠ []) : listMin l ∈ l := by
  cases l with
  | nil => exact absurd rfl h
  | cons y ys => exact foldl_min_mem ys y

lemma init_le_foldl_max (xs : List ℚ) (a : ℚ) : a ≤ xs.foldl max a := by
  induction xs generalizing a with
  | nil => simp
  | cons y ys ih =>
    simpa using le_trans (le_max_left a y) (ih (max a y))

lemma mem_le_foldl_max (xs : List ℚ) (a x : ℚ) (hx : x ∈ xs) :
    x ≤ xs.foldl max a := by
  induction xs generalizing a with
  | nil => cases hx
  | cons y ys ih =>
    rcases List.mem_cons.mp hx with h | h
    · subst h
      simpa using le_trans (le_max_right a x) (init_le_foldl_max ys (max a x))
    · simpa using ih (max a y) h

lemma le_listMax (l : List ℚ) (x : ℚ) (hx : x ∈ l) : x ≤ listMax l := by
  cases l with
  | nil => cases hx
  | cons y ys =>
    rcases List.mem_cons.mp hx with h | h
    · subst h; exact init_le_foldl_max ys x
    · exact mem_le_foldl_max ys y x h

lemma matMin_le (m : List (List ℚ)) (x : ℚ) (hx : x ∈ m.flatten) :
    matMin m ≤ x := listMin_le _ _ hx

lemma le_matMax (m : List (List ℚ)) (x : ℚ) (hx : x ∈ m.flatten) :
    x ≤ matMax m := le_listMax _ _ hx

/-! ### Lemmas about `keepUniqs`, `zipWith` indexing and shapes -/

lemma keepUniqsAux_mem (l : List ℚ) (seen : List ℚ) (x : ℚ) :
    x ∈ keepUniqsAux seen l ↔ x ∈ l ∧ x ∉ seen := by
  induction l generalizing seen with
  | nil => simp [keepUniqsAux]
  | cons y ys ih =>
    by_cases hy : y ∈ seen
    · rw [show keepUniqsAux seen (y :: ys) = keepUniqsAux seen ys from by
        simp [keepUniqsAux, hy], ih]
      constructor
      · rintro ⟨h1, h2⟩; exact ⟨List.mem_cons_of_mem _ h1, h2⟩
      · rintro ⟨h1, h2⟩
        rcases List.mem_cons.mp h1 with h | h
        · exact absurd (h ▸ hy) h2
        · exact ⟨h, h2⟩
    · rw [show keepUniqsAux seen (y :: ys) = y :: keepUniqsAux (y :: seen) ys from
        by simp [keepUniqsAux, hy]]
      constructor
      · intro hx
        rcases List.mem_cons.mp hx with h | h
        · subst h; exact ⟨List.mem_cons_self _ _, hy⟩
        · rcases (ih (y :: seen)).mp h with ⟨h1, h2⟩
          exact ⟨List.mem_cons_of_mem _ h1,
            fun hs => h2 (List.mem_cons_of_mem _ hs)⟩
      · rintro ⟨h1, h2⟩
        rcases List.mem_cons.mp h1 with h | h
        · subst h; exact List.mem_cons_self _ _
        · by_cases hxy : x = y
          · subst hxy; exact List.mem_cons_self _ _
          · refine List.mem_cons_of_mem _
              ((ih (y :: seen)).mpr ⟨h, fun hs => ?_⟩)
            rcases List.mem_cons.mp hs with h' | h'
            · exact hxy h'
            · exact h2 h'

lemma keepUniqs_mem (l : List ℚ) (x : ℚ) : x ∈ keepUniqs l ↔ x ∈ l := by
  simp [keepUniqs, keepUniqsAux_mem]

lemma zipWith_get? {α β γ : Type} (f : α → β → γ) (as : List α) (bs : List β)
    (i : ℕ) :
    (List.zipWith f as bs).get? i =
      match as.get? i, bs.get? i with
      | some a, some b => some (f a b)
      | _, _ => none := by
  induction as generalizing bs i with
  | nil => cases bs <;> simp
  | cons a as ih =>
    cases bs with
    | nil => simp
    | cons b bs =>
      cases i with
      | zero => simp
      | succ n => simpa using ih bs n

/-! ### Rounding and tick lemmas -/

lemma roundHalfEven_add_hundred (x : ℚ) :
    roundHalfEven (x + 100) = roundHalfEven x + 100 := by
  unfold roundHalfEven
  have hf : ⌊x + 100⌋ = ⌊x⌋ + 100 := by
    exact_mod_cast Int.floor_add_int x (100 : ℤ)
  rw [hf]
  dsimp only
  have hr : x + 100 - ((⌊x⌋ + 100 : ℤ) : ℚ) = x - (⌊x⌋ : ℚ) := by
    push_cast; ring
  rw [hr]
  have heven : Even (⌊x⌋ + 100) ↔ Even ⌊x⌋ := by
    constructor
    · intro h
      have h100 : Even (100 : ℤ) := by decide
      simpa using h.sub h100
    · intro h
      have h100 : Even (100 : ℤ) := by decide
      exact h.add h100
  simp only [heven]
  split_ifs with h1 h2 h3 <;> ring

lemma pyRound2_add_one (x : ℚ) : pyRound2 (x + 1) = pyRound2 x + 1 := by
  unfold pyRound2
  have : (x + 1) * 100 = x * 100 + 100 := by ring
  rw [this, roundHalfEven_add_hundred]
  push_cast
  ring

lemma ubFix_ne (lb ub : ℚ) : ubFix lb ub ≠ lb := by
  unfold ubFix
  split_ifs with h
  · intro hc; linarith
  · exact fun hc => h (hc ▸ rfl)

lemma npArange_length_self (lb u : ℚ) (n : ℕ) (hu : u ≠ lb) (hn : 1 ≤ n) :
    (npArange lb u ((u - lb) / n)).length = n := by
  unfold npArange
  have hul : u - lb ≠ 0 := sub_ne_zero.mpr hu
  have hnq : (n : ℚ) ≠ 0 := by
    have : 0 < n := hn
    exact_mod_cast Nat.pos_iff_ne_zero.mp this
  have hdiv : (u - lb) / ((u - lb) / (n : ℚ)) = (n : ℚ) := by
    field_simp
  simp [hdiv, Int.ceil_natCast]

lemma ticksRawList_length (lb ub : ℚ) (n : ℕ) (hn : 1 ≤ n) :
    (ticksRawList lb ub n).length = n + 2 := by
  unfold ticksRawList
  rw [List.length_append]
  rw [npArange_length_self lb (ubFix lb ub) n (ubFix_ne lb ub) hn]
  simp [Nat.add_comm]

lemma mem_get_plt_ticks_of_mem_raw (lb ub : ℚ) (n : ℕ) (x : ℚ)
    (hx : x ∈ ticksRawList lb ub n) : pyRound2 x ∈ get_plt_ticks lb ub n := by
  unfold get_plt_ticks
  exact List.mem_map_of_mem pyRound2 ((keepUniqs_mem _ _).mpr hx)

/-! ### Parsing lemmas -/

lemma parseObs_ok_iff (fields : List String) (j n : ℕ) :
    (∃ r, parseObs fields j n = Except.ok r) ↔
      ∀ k, k < n → ∃ s q, fields.get? (j + k) = some s ∧ pyFloat s = some q := by
  induction n generalizing j with
  | zero =>
    simp only [parseObs]
    constructor
    · intro _ k hk; cases hk
    · intro _; exact ⟨[], rfl⟩
  | succ n ih =>
    constructor
    · rintro ⟨r, hr⟩ k hk
      rcases hs : fields.get? j with _ | s
      · simp only [parseObs, hs] at hr; cases hr
      · rcases hq : pyFloat s with _ | q
        · simp only [parseObs, hs, hq] at hr; cases hr
        · cases k with
          | zero => exact ⟨s, q, by simpa using hs, hq⟩
          | succ k =>
            have hrest : ∃ r', parseObs fields (j + 1) n = Except.ok r' := by
              rcases hrec : parseObs fields (j + 1) n with e | r'
              · simp only [parseObs, hs, hq, hrec] at hr; cases hr
              · exact ⟨r', rfl⟩
            have := (ih (j + 1)).mp hrest k (Nat.lt_of_succ_lt_succ hk)
            simpa [Nat.add_comm, Nat.add_assoc, Nat.add_left_comm] using this
    · intro h
      rcases h 0 (Nat.zero_lt_succ n) with ⟨s, q, hs, hq⟩
      rw [Nat.add_zero] at hs
      have hrest : ∃ r', parseObs fields (j + 1) n = Except.ok r' := by
        refine (ih (j + 1)).mpr (fun k hk => ?_)
        have := h (k + 1) (Nat.succ_lt_succ hk)
        simpa [Nat.add_comm, Nat.add_assoc, Nat.add_left_comm] using this
      rcases hrest with ⟨r', hr'⟩
      exact ⟨q :: r', by simp only [parseObs, hs, hq, hr']⟩

lemma parseObs_error_of_short (fields : List String) (ncols : ℕ)
    (hc : 1 ≤ ncols) (hlen : fields.length < ncols + 1) :
    ∃ err, parseObs fields 1 ncols = Except.error err := by
  have hnone : fields.get? (1 + (fields.length - 1)) = none := by
    apply List.get?_eq_none.mpr
    cases fields with
    | nil => simp
    | cons f fs => simp; omega
  have hk : fields.length - 1 < ncols := by omega
  rcases hres : parseObs fields 1 ncols with e | r
  · exact ⟨e, rfl⟩
  · exfalso
    have := (parseObs_ok_iff fields 1 ncols).mp ⟨r, hres⟩ (fields.length - 1) hk
    rcases this with ⟨s, q, hs, _⟩
    rw [hnone] at hs
    cases hs

lemma parseObs_error_of_nonnumeric (fields : List String) (ncols k : ℕ)
    (s : String) (hk : k < ncols) (hs : fields.get? (1 + k) = some s)
    (hq : pyFloat s = none) :
    ∃ err, parseObs fields 1 ncols = Except.error err := by
  rcases hres : parseObs fields 1 ncols with e | r
  · exact ⟨e, rfl⟩
  · exfalso
    rcases (parseObs_ok_iff fields 1 ncols).mp ⟨r, hres⟩ k hk with ⟨s', q, hs', hq'⟩
    rw [hs] at hs'
    cases hs'
    rw [hq] at hq'
    cases hq'

lemma readRows_append_error (d : Char) (ncols : ℕ) (good : List String)
    (rows : List (List ℚ))
    (hg : List.Forall₂
      (fun l r => parseObs (pyFields d l) 1 ncols = Except.ok r) good rows)
    (bad : String) (e : ParseError)
    (hb : parseObs (pyFields d bad) 1 ncols = Except.error e)
    (rest : List String) :
    readRows d ncols (good ++ bad :: rest) =
      Except.error (e,
        good.map (fun l => (pyFields d l).headD "") ++
          [(pyFields d bad).headD ""],
        rows) := by
  induction hg with
  | nil =>
    simp only [List.nil_append, readRows, hb, List.map_nil]
  | cons hlr hg ih =>
    rename_i l r ls rs
    simp only [List.cons_append, readRows, hlr, List.append_eq, ih, List.map_cons]

/-! ### Transform lemmas -/

lemma ratioRow_ge_one (row : List ℚ) (h : 0 < listMin row) :
    ∀ x ∈ ratioRow row, 1 ≤ x := by
  intro x hx
  rcases List.mem_map.mp hx with ⟨v, hv, rfl⟩
  exact (one_le_div h).mpr (listMin_le _ _ hv)

lemma ratioRow_has_one (row : List ℚ) (hne : row ≠ []) (h : 0 < listMin row) :
    (1 : ℚ) ∈ ratioRow row :=
  List.mem_map.mpr ⟨listMin row, listMin_mem _ hne, div_self (ne_of_gt h)⟩

lemma perfprofTransform_true (shift : ℚ) (raw : List (List ℚ)) :
    perfprofTransform shift true raw =
      raw.map (fun r => ratioRow (shiftRow shift r)) := by
  simp [perfprofTransform, List.map_map, Function.comp]

lemma perfprofTransform_false (shift : ℚ) (raw : List (List ℚ)) :
    perfprofTransform shift false raw = raw.map (shiftRow shift) := by
  simp [perfprofTransform]

lemma plotNormalize_zero (raw : List (List ℚ)) :
    plotNormalize 0 raw = perfprofTransform 0 true raw := by
  simp [plotNormalize, perfprofTransform, shiftRow, ratioRow, List.map_map,
    Function.comp]

/-! ### Shape, indexing and separation lemmas for `plotProcessData` -/

lemma forall₂_len_self (raw : List (List ℚ)) :
    List.Forall₂ (fun (r d : List ℚ) => d.length = r.length) raw raw :=
  List.forall₂_same.mpr (fun _ _ => rfl)

lemma forall₂_len_map (raw : List (List ℚ)) (f : List ℚ → List ℚ)
    (hf : ∀ r, (f r).length = r.length) :
    List.Forall₂ (fun (r d : List ℚ) => d.length = r.length) raw (raw.map f) := by
  induction raw with
  | nil => simp
  | cons r rs ih => exact List.Forall₂.cons (hf r) ih

lemma forall₂_len_zipWith (g : ℚ → ℚ → ℚ) (raw d0 : List (List ℚ))
    (h : List.Forall₂ (fun (r d : List ℚ) => d.length = r.length) raw d0) :
    List.Forall₂ (fun (r d : List ℚ) => d.length = r.length) raw
      (List.zipWith (fun rr dr => List.zipWith g rr dr) raw d0) := by
  induction h with
  | nil => simp
  | cons hlen h ih =>
    refine List.Forall₂.cons ?_ ih
    simp [List.length_zipWith, hlen]

lemma plotData0_shape (opt : PlotOpt) (raw : List (List ℚ)) :
    List.Forall₂ (fun (r d : List ℚ) => d.length = r.length) raw
      (plotData0 opt raw) := by
  unfold plotData0
  split_ifs
  · exact forall₂_len_self raw
  · exact forall₂_len_map raw _ (fun r => by simp [plotNormalize])

lemma plotProcessData_shape (opt : PlotOpt) (raw : List (List ℚ)) :
    List.Forall₂ (fun (r d : List ℚ) => d.length = r.length) raw
      (plotProcessData opt raw).data := by
  simp only [plotProcessData]
  exact forall₂_len_zipWith _ raw _ (plotData0_shape opt raw)

lemma plotProcessData_cell (opt : PlotOpt) (raw : List (List ℚ)) (i j : ℕ)
    (rv dv : ℚ)
    (h1 : (raw.get? i).bind (fun row => row.get? j) = some rv)
    (h2 : ((plotData0 opt raw).get? i).bind (fun row => row.get? j) = some dv) :
    (((plotProcessData opt raw).data).get? i).bind (fun row => row.get? j) =
      some (remapCell opt.x_raw_lower_limit opt.x_raw_upper_limit
        (plotProcessData opt raw).x_min (plotProcessData opt raw).x_max rv dv) := by
  rcases Option.bind_eq_some.mp h1 with ⟨rrow, hri, hrj⟩
  rcases Option.bind_eq_some.mp h2 with ⟨drow, hdi, hdj⟩
  simp only [plotProcessData]
  rw [zipWith_get?, hri, hdi]
  simp only [Option.some_bind]
  rw [zipWith_get?, hrj, hdj]

lemma plotProcessData_sep (opt : PlotOpt) (raw : List (List ℚ))
    (hmin : opt.x_min = none) (hmax : opt.x_max = none) (v : ℚ)
    (hv : v ∈ (plotData0 opt raw).flatten) :
    (plotProcessData opt raw).x_min - 1000000 < v ∧
      v < (plotProcessData opt raw).x_max + 1000000 := by
  simp only [plotProcessData, hmin, hmax, Option.getD_none]
  constructor
  · have := matMin_le _ v hv
    linarith
  · split_ifs with h
    · have h1 := le_matMax _ v hv
      linarith
    · have h1 := le_matMax _ v hv
      linarith

lemma remapCell_low (lo hi : Option ℚ) (xmin xmax rv v l : ℚ)
    (hl : lo = some l) (h : rv ≤ l) :
    remapCell lo hi xmin xmax rv v = xmin - 1000000 := by
  subst hl
  unfold remapCell
  cases hi <;> simp [h]

lemma remapCell_high (lo hi : Option ℚ) (xmin xmax rv v u : ℚ)
    (hh : hi = some u) (hu : u ≤ rv) (hnl : ∀ l, lo = some l → ¬ rv ≤ l) :
    remapCell lo hi xmin xmax rv v = xmax + 1000000 := by
  subst hh
  unfold remapCell
  cases lo with
  | none => simp [hu]
  | some l => simp [hu, hnl l rfl]

lemma remapCell_id (lo hi : Option ℚ) (xmin xmax rv v : ℚ)
    (hnl : ∀ l, lo = some l → ¬ rv ≤ l) (hnu : ∀ u, hi = some u → ¬ u ≤ rv) :
    remapCell lo hi xmin xmax rv v = v := by
  unfold remapCell
  cases lo with
  | none =>
    cases hi with
    | none => rfl
    | some u => simp [hnu u rfl]
  | some l =>
    cases hi with
    | none => simp [hnl l rfl]
    | some u => simp [hnl l rfl, hnu u rfl]

/-! ### Claim theorems -/

/-- C1 (counterexample): on the scenario's literal input
`"algo1,algo2\ninst1,2.0,4.0\ninst2,3.0,1.0\n"` with delimiter `','`, the
reader discards the first header field, so it returns a single solver column
`["algo2"]` with data `[[2.0], [3.0]]` — not the two solver columns the
claim describes — and the ratio-normalized matrix is `[[1.0], [1.0]]`, not
`[[1.0, 2.0], [3.0, 1.0]]`. -/
theorem c1_scenario_counterexample :
    readTable ',' "algo1,algo2\ninst1,2.0,4.0\ninst2,3.0,1.0\n" =
      Except.ok (["inst1", "inst2"], ["algo2"], [[2], [3]]) ∧
    (["algo2"] : List String) ≠ ["algo1", "algo2"] ∧
    plotNormalize 0 [[2], [3]] = [[1], [1]] ∧
    ([[1], [1]] : List (List ℚ)) ≠ [[1, 2], [3, 1]] := by
  refine ⟨by rfl, by decide, by decide, by decide⟩

/-- C1 (amended): with a placeholder first header field, i.e. input
`"x,algo1,algo2\ninst1,2.0,4.0\ninst2,3.0,1.0\n"`, delimiter `','`, ratio
normalization on and shift 0, the reader yields solvers `algo1, algo2` and
data `[[2, 4], [3, 1]]`; the row minima are `[2, 1]`, the normalized matrix
is `[[1, 2], [3, 1]]`, plot.py's `process_data` resolves `x_min = 1`,
`x_max = 3` and leaves the matrix unchanged, and the sorted columns are
`algo1 = [1, 3]`, `algo2 = [1, 2]`. -/
theorem c1_scenario_amended :
    readTable ',' "x,algo1,algo2\ninst1,2.0,4.0\ninst2,3.0,1.0\n" =
      Except.ok (["inst1", "inst2"], ["algo1", "algo2"], [[2, 4], [3, 1]]) ∧
    ([[2, 4], [3, 1]] : List (List ℚ)).map listMin = [2, 1] ∧
    plotNormalize 0 [[2, 4], [3, 1]] = [[1, 2], [3, 1]] ∧
    plotProcessData ⟨false, 0, none, none, none, none⟩ [[2, 4], [3, 1]] =
      ⟨1, 3, [[1, 2], [3, 1]]⟩ ∧
    sortedCols [[1, 2], [3, 1]] = [[1, 3], [1, 2]] := by
  refine ⟨by rfl, by decide, by decide, by decide, by decide⟩

/-- C2 (counterexample): plot.py's `process_data` divides the shifted data
by the pre-shift row minima, so with shift `-1` and row `[2, 4]` the data
being normalized is `[1, 3]` (its minimum 1 is positive), yet the output row
is `[1/2, 3/2]`: the best solver's entry is not 1.0 and is even below 1. -/
theorem c2_ratio_counterexample :
    plotNormalize (-1) [[2, 4]] = [[1/2, 3/2]] ∧
    0 < listMin (shiftRow (-1) [2, 4]) ∧
    ¬ (1 : ℚ) ≤ 1/2 := by
  refine ⟨by decide, by decide, by decide⟩

/-- C2 (amended): perfprof.py computes the minima after the shift, so for
every row whose post-shift minimum is positive the ratio step maps the
minimal entry to exactly 1 and every entry to a value ≥ 1, and with the
ratio flag off the transform is the pure shift with no division; plot.py
(whose baseline is the pre-shift minimum) agrees with it exactly when the
shift is 0. -/
theorem c2_ratio_amended (shift : ℚ) (raw : List (List ℚ)) :
    perfprofTransform shift true raw =
      raw.map (fun r => ratioRow (shiftRow shift r)) ∧
    perfprofTransform shift false raw = raw.map (shiftRow shift) ∧
    (∀ row ∈ raw, 0 < listMin (shiftRow shift row) →
      (∀ x ∈ ratioRow (shiftRow shift row), 1 ≤ x) ∧
      (row ≠ [] → (1 : ℚ) ∈ ratioRow (shiftRow shift row))) ∧
    plotNormalize 0 raw = perfprofTransform 0 true raw := by
  refine ⟨perfprofTransform_true shift raw, perfprofTransform_false shift raw,
    ?_, plotNormalize_zero raw⟩
  intro row _ hpos
  refine ⟨ratioRow_ge_one _ hpos, fun hne => ?_⟩
  have : shiftRow shift row ≠ [] := by
    cases row with
    | nil => exact absurd rfl hne
    | cons a as => simp [shiftRow]
  exact ratioRow_has_one _ this hpos

/-- C2 (witness): the amended theorem applied to the single-row table
`[[2, 4]]` with shift 0: the best entry of the ratio row is exactly 1. -/
theorem c2_ratio_amended_witness :
    (1 : ℚ) ∈ ratioRow (shiftRow 0 [2, 4]) :=
  (((c2_ratio_amended 0 [[2, 4]]).2.2.1 [2, 4] (by decide)
    (by decide)).2 (by decide))

/-- C5 (code bug): with `--plot-as-ratios` on the two-row table
`[[2, 4], [3, 1]]`, perfprof.py's threshold scaling crashes instead of
completing: with explicit `x_min = 1`, `x_max = 3` (and the default limits
`±1e99`), `opt.x_min /= minima` broadcasts the scalar to a two-element
array and the check `opt.x_min <= -1e21` raises
`ValueError: ambiguous truth value`; with `x_min`/`x_max` unset (`None`),
`opt.x_min /= minima` raises `TypeError` immediately. -/
theorem c5_threshold_scaling_bug :
    perfprofRatioPhase [[2, 4], [3, 1]]
      (.scalar (-(10^99))) (.scalar (10^99)) (.scalar 1) (.scalar 3) =
      Except.error NpErr.ambiguousTruthValue ∧
    perfprofRatioPhase [[2, 4], [3, 1]]
      (.scalar (-(10^99))) (.scalar (10^99)) .noneV .noneV =
      Except.error NpErr.typeError := by
  exact ⟨by rfl, by rfl⟩

/-- C6 (code bug): at plot.py line 318 the binding
`x = np.copy(p.data).sort(axis=0)` evaluates to `None` because
`ndarray.sort` sorts in place and returns `None`, so no distribution is
built; the intended behaviour — realized by perfprof.py lines 214-217 — on
the processed matrix `[[1, 2], [3, 1]]` sorts each column ascending
(`algo1 = [1, 3]`, `algo2 = [1, 2]`) and pairs them with the shared
`y = [0, 1/2]`, which is strictly increasing with values in `[0, 1)`. -/
theorem c6_sort_distribution_bug :
    npCopySortReturn [[1, 2], [3, 1]] = none ∧
    sortedCols [[1, 2], [3, 1]] = [[1, 3], [1, 2]] ∧
    ySeq 2 = [0, 1/2] ∧
    List.Pairwise (· < ·) (ySeq 2) ∧
    (∀ y ∈ ySeq 2, 0 ≤ y ∧ y < 1) := by
  refine ⟨rfl, by decide, by decide, by decide, by decide⟩

/-- C3 (counterexample): separation can fail with an explicit bound.  With
`--raw-data`, `x_min = 0`, `x_max = 1`, lower limit `-5e6` and the one-row
table `[[-6e6, -2e6]]`, the first cell is clamped low (raw `-6e6 ≤ -5e6`)
to `x_min - 1e6 = -1e6`, while the second cell is non-clamped with value
`-2e6`; the clamped-low value is *greater* than the non-clamped value,
contradicting the claimed monotone separation for all valid configurations
(here the limits and bounds are each internally consistent). -/
theorem c3_remap_counterexample :
    plotProcessData ⟨true, 0, some 0, some 1, some (-5000000), none⟩
      [[-6000000, -2000000]] = ⟨0, 1, [[-1000000, -2000000]]⟩ ∧
    ((-6000000 : ℚ) ≤ -5000000) ∧
    ¬ ((-2000000 : ℚ) ≤ -5000000) ∧
    ¬ ((-1000000 : ℚ) < -2000000) := by
  refine ⟨by decide, by decide, by decide, by decide⟩

/-- C3 (amended): the per-cell remap rule and shape preservation hold as
claimed — a cell whose raw value reaches the lower limit becomes
`x_min - 1e6` (the lower rule wins if both fire), a cell whose raw value
reaches only the upper limit becomes `x_max + 1e6`, any other cell keeps its
processed value, and the output has exactly the input's row count and row
lengths — and the monotone separation of clamped values holds whenever
`x_min` and `x_max` are derived from the data: every stage-one value `v`
satisfies `x_min - 1e6 < v < x_max + 1e6`, so every clamped-low cell is
below and every clamped-high cell is above all non-clamped cells. -/
theorem c3_remap_amended :
    (∀ (opt : PlotOpt) (raw : List (List ℚ)),
      List.Forall₂ (fun (r d : List ℚ) => d.length = r.length) raw
        (plotProcessData opt raw).data) ∧
    (∀ (opt : PlotOpt) (raw : List (List ℚ)) (i j : ℕ) (rv dv : ℚ),
      (raw.get? i).bind (fun row => row.get? j) = some rv →
      ((plotData0 opt raw).get? i).bind (fun row => row.get? j) = some dv →
      (((plotProcessData opt raw).data).get? i).bind (fun row => row.get? j) =
        some (remapCell opt.x_raw_lower_limit opt.x_raw_upper_limit
          (plotProcessData opt raw).x_min (plotProcessData opt raw).x_max
          rv dv)) ∧
    (∀ (lo hi : Option ℚ) (xmin xmax rv v l : ℚ), lo = some l → rv ≤ l →
      remapCell lo hi xmin xmax rv v = xmin - 1000000) ∧
    (∀ (lo hi : Option ℚ) (xmin xmax rv v u : ℚ), hi = some u → u ≤ rv →
      (∀ l, lo = some l → ¬ rv ≤ l) →
      remapCell lo hi xmin xmax rv v = xmax + 1000000) ∧
    (∀ (lo hi : Option ℚ) (xmin xmax rv v : ℚ),
      (∀ l, lo = some l → ¬ rv ≤ l) → (∀ u, hi = some u → ¬ u ≤ rv) →
      remapCell lo hi xmin xmax rv v = v) ∧
    (∀ (opt : PlotOpt) (raw : List (List ℚ)), opt.x_min = none →
      opt.x_max = none → ∀ v ∈ (plotData0 opt raw).flatten,
      (plotProcessData opt raw).x_min - 1000000 < v ∧
        v < (plotProcessData opt raw).x_max + 1000000) := by
  exact ⟨plotProcessData_shape, plotProcessData_cell, remapCell_low,
    remapCell_high, remapCell_id,
    fun opt raw hmin hmax v hv => plotProcessData_sep opt raw hmin hmax v hv⟩

/-- C3 (witness): the amended theorem's separation bound applied to the
derived-bounds configuration on `[[1, 2]]` at the entry `v = 1`, and the
lower remap rule at the counterexample's clamped cell. -/
theorem c3_remap_amended_witness :
    ((plotProcessData ⟨true, 0, none, none, none, none⟩ [[1, 2]]).x_min
        - 1000000 < 1 ∧
      (1 : ℚ) < (plotProcessData ⟨true, 0, none, none, none, none⟩
        [[1, 2]]).x_max + 1000000) ∧
    remapCell (some (-5000000)) none 0 1 (-6000000) (-6000000) =
      0 - 1000000 :=
  ⟨c3_remap_amended.2.2.2.2.2 ⟨true, 0, none, none, none, none⟩ [[1, 2]]
      rfl rfl 1 (by decide),
    c3_remap_amended.2.2.1 (some (-5000000)) none 0 1 (-6000000) (-6000000)
      (-5000000) rfl (by decide)⟩

/-- C4 (counterexample): plot.py does not fold the raw limits into the
derived bounds.  With `--raw-data`, data `[[0, 10]]`, lower limit 5 and
`x_min` unset, the resolved `x_min` is `data.min() = 0`, not
`max(5, 0) = 5` as the claim's formula requires. -/
theorem c4_axis_counterexample :
    (plotProcessData ⟨true, 0, none, none, some 5, none⟩ [[0, 10]]).x_min
      = 0 ∧
    (0 : ℚ) ≠ max 5 0 := by
  refine ⟨by decide, by decide⟩

/-- C4 (amended): in plot.py an unset `x_min` resolves to the minimum of the
transformed data and an unset `x_max` (when `x_min` is also unset and the
data is not all equal) to its maximum — the raw limits play no part;
explicitly supplied bounds are kept, except that `x_max` is forced to
`x_min + 1` whenever the resolved `x_min ≥ x_max`, so plot.py's output
range is always non-degenerate.  perfprof.py's scalar path does derive
`max(lower_limit, data.min())` and `min(upper_limit, data.max())` for unset
(or `±1e21`-sentinel) bounds and keeps in-range explicit bounds, but its
degenerate-range guard fires only on exact equality. -/
theorem c4_axis_amended :
    (∀ (opt : PlotOpt) (raw : List (List ℚ)), opt.x_min = none →
      (plotProcessData opt raw).x_min = matMin (plotData0 opt raw)) ∧
    (∀ (opt : PlotOpt) (raw : List (List ℚ)) (a : ℚ), opt.x_min = some a →
      (plotProcessData opt raw).x_min = a) ∧
    (∀ (opt : PlotOpt) (raw : List (List ℚ)) (a b : ℚ), opt.x_min = some a →
      opt.x_max = some b → a < b → (plotProcessData opt raw).x_max = b) ∧
    (∀ (opt : PlotOpt) (raw : List (List ℚ)) (a b : ℚ), opt.x_min = some a →
      opt.x_max = some b → b ≤ a → (plotProcessData opt raw).x_max = a + 1) ∧
    (∀ (opt : PlotOpt) (raw : List (List ℚ)), opt.x_min = none →
      opt.x_max = none →
      matMin (plotData0 opt raw) < matMax (plotData0 opt raw) →
      (plotProcessData opt raw).x_max = matMax (plotData0 opt raw)) ∧
    (∀ (opt : PlotOpt) (raw : List (List ℚ)),
      (plotProcessData opt raw).x_min < (plotProcessData opt raw).x_max) ∧
    (∀ lower dmin : ℚ, perfprofResolveMin none lower dmin = max lower dmin) ∧
    (∀ upper dmax : ℚ, perfprofResolveMax none upper dmax = min upper dmax) ∧
    (∀ v lower dmin : ℚ, ¬ v ≤ -(10^21) →
      perfprofResolveMin (some v) lower dmin = v) ∧
    (∀ v upper dmax : ℚ, ¬ (10^21 : ℚ) ≤ v →
      perfprofResolveMax (some v) upper dmax = v) ∧
    (∀ a b : ℚ, a ≠ b → perfprofGuard a b = b) ∧
    (∀ a : ℚ, perfprofGuard a a = a + 1) := by
  refine ⟨?_, ?_, ?_, ?_, ?_, ?_, ?_, ?_, ?_, ?_, ?_, ?_⟩
  · intro opt raw h
    simp [plotProcessData, h]
  · intro opt raw a h
    simp [plotProcessData, h]
  · intro opt raw a b ha hb hab
    simp only [plotProcessData, ha, hb, Option.getD_some]
    rw [if_neg (not_le.mpr hab)]
  · intro opt raw a b ha hb hba
    simp only [plotProcessData, ha, hb, Option.getD_some]
    rw [if_pos hba]
  · intro opt raw hmin hmax hlt
    simp only [plotProcessData, hmin, hmax, Option.getD_none]
    rw [if_neg (not_le.mpr hlt)]
  · intro opt raw
    simp only [plotProcessData]
    split_ifs with h
    · linarith
    · exact lt_of_not_le h
  · intro lower dmin; rfl
  · intro upper dmax; rfl
  · intro v lower dmin h
    simp [perfprofResolveMin, h]
  · intro v upper dmax h
    simp [perfprofResolveMax, h]
  · intro a b h
    simp [perfprofGuard, h]
  · intro a
    simp [perfprofGuard]

/-- C4 (witness): the amended theorem applied to a concrete derived-bounds
run (`x_min` unset on data `[[3, 7]]` resolves to 3), to a kept explicit
bound, and to perfprof.py's unset-bound formula at `lower = 5`,
`dmin = 0`. -/
theorem c4_axis_amended_witness :
    (plotProcessData ⟨true, 0, none, none, none, none⟩ [[3, 7]]).x_min =
      matMin (plotData0 ⟨true, 0, none, none, none, none⟩ [[3, 7]]) ∧
    (plotProcessData ⟨true, 0, some 2, some 9, none, none⟩ [[3, 7]]).x_max =
      9 ∧
    perfprofResolveMin none 5 0 = max 5 0 :=
  ⟨c4_axis_amended.1 ⟨true, 0, none, none, none, none⟩ [[3, 7]] rfl,
    c4_axis_amended.2.2.1 ⟨true, 0, some 2, some 9, none, none⟩ [[3, 7]] 2 9
      rfl rfl (by decide),
    c4_axis_amended.2.2.2.2.2.2.1 5 0⟩

/-- C7 (counterexample): duplicates are removed before rounding, so the
returned ticks need not be pairwise distinct and need not contain `lo` or
`hi`.  For `lo = 0 < hi = 1/250` and `n = 1` the function returns
`[0, 0]` — a duplicated list that misses `hi`. -/
theorem c7_ticks_counterexample :
    get_plt_ticks 0 (1/250) 1 = [0, 0] ∧
    (0 : ℚ) < 1/250 ∧
    (1/250 : ℚ) ∉ get_plt_ticks 0 (1/250) 1 ∧
    ¬ (get_plt_ticks 0 (1/250) 1).Nodup := by
  refine ⟨by decide, by decide, by decide, by decide⟩

/-- C7 (amended): for every `lb`, `ub` and `n ≥ 1` the tick list contains
the rounded endpoints `round(lb, 2)` and `round(ub', 2)` (where `ub'` is
`ub`, widened to `lb + 1` when `ub = lb`); the list built before duplicate
removal has exactly `n + 2` entries, so never more than `n + 2`; and the
degenerate call with `ub = lb` does not raise and contains the two distinct
values `round(lb, 2)` and `round(lb + 1, 2)`.  The values returned are the
rounded images of the deduplicated raw list, so duplicates can reappear
after rounding and `lb`/`ub` themselves appear only in rounded form. -/
theorem c7_ticks_amended (lb ub : ℚ) (n : ℕ) (hn : 1 ≤ n) :
    pyRound2 lb ∈ get_plt_ticks lb ub n ∧
    pyRound2 (ubFix lb ub) ∈ get_plt_ticks lb ub n ∧
    (ticksRawList lb ub n).length = n + 2 ∧
    (lb = ub →
      pyRound2 lb ∈ get_plt_ticks lb ub n ∧
      pyRound2 (lb + 1) ∈ get_plt_ticks lb ub n ∧
      pyRound2 lb ≠ pyRound2 (lb + 1)) := by
  have hlb : lb ∈ ticksRawList lb ub n := by
    unfold ticksRawList
    exact List.mem_cons_self _ _
  have hub : ubFix lb ub ∈ ticksRawList lb ub n := by
    unfold ticksRawList
    exact List.mem_cons_of_mem _ (List.mem_cons_self _ _)
  refine ⟨mem_get_plt_ticks_of_mem_raw lb ub n lb hlb,
    mem_get_plt_ticks_of_mem_raw lb ub n _ hub,
    ticksRawList_length lb ub n hn, fun heq => ?_⟩
  have hfix : ubFix lb ub = lb + 1 := by
    simp [ubFix, heq]
  refine ⟨mem_get_plt_ticks_of_mem_raw lb ub n lb hlb, ?_, ?_⟩
  · rw [← hfix]
    exact mem_get_plt_ticks_of_mem_raw lb ub n _ hub
  · rw [pyRound2_add_one]
    intro hc
    linarith

/-- C7 (witness): the amended theorem at `lb = 0`, `ub = 5`, `n = 8`:
`round(0, 2)` is among the ticks and the raw list has 10 entries. -/
theorem c7_ticks_amended_witness :
    pyRound2 0 ∈ get_plt_ticks 0 5 8 ∧ (ticksRawList 0 5 8).length = 8 + 2 :=
  ⟨(c7_ticks_amended 0 5 8 (by decide)).1,
    (c7_ticks_amended 0 5 8 (by decide)).2.2.1⟩

/-- C8 (counterexample): on a header-only input perfprof.py's
`if data.shape == (0,): return` makes `main` return normally, so the
interpreter exits with status 0 and prints nothing — not the claimed
fatal non-zero termination (which is what plot.py does). -/
theorem c8_empty_counterexample :
    readTable ',' "algo0,algo1,algo2\n" =
      Except.ok ([], ["algo1", "algo2"], []) ∧
    perfprofEmptyGuard [] = EmptyGuardOutcome.returnZero ∧
    EmptyGuardOutcome.returnZero ≠ EmptyGuardOutcome.fatalExit (-1) true := by
  refine ⟨by rfl, by rfl, by decide⟩

/-- C8 (amended): when the parsed table has zero data rows, neither program
runs the transform: plot.py prints a diagnostic and exits with status −1,
while perfprof.py returns silently from `main`, exiting with status 0,
indistinguishable from success by exit status. -/
theorem c8_empty_amended (d : Char) (input : String)
    (res : List String × List String × List (List ℚ))
    (_h : readTable d input = Except.ok res) (hrows : res.2.2 = []) :
    plotEmptyGuard res.2.2 = EmptyGuardOutcome.fatalExit (-1) true ∧
    perfprofEmptyGuard res.2.2 = EmptyGuardOutcome.returnZero ∧
    plotEmptyGuard res.2.2 ≠ EmptyGuardOutcome.proceed ∧
    perfprofEmptyGuard res.2.2 ≠ EmptyGuardOutcome.proceed := by
  rw [hrows]
  exact ⟨rfl, rfl, by decide, by decide⟩

/-- C8 (witness): the amended theorem at the header-only input
`"algo0,a,b\n"`. -/
theorem c8_empty_amended_witness :
    plotEmptyGuard [] = EmptyGuardOutcome.fatalExit (-1) true ∧
    perfprofEmptyGuard [] = EmptyGuardOutcome.returnZero :=
  ⟨(c8_empty_amended ',' "algo0,a,b\n" ([], ["a", "b"], []) (by rfl) rfl).1,
    (c8_empty_amended ',' "algo0,a,b\n" ([], ["a", "b"], []) (by rfl) rfl).2.1⟩

/-- C9 (counterexample): a data row with *more* fields than the header does
not fail: on `"x,a,b\ni1,1.0,2.0,99.0\n"` the row has 4 fields where
`ncols + 1 = 3` are expected, yet the reader succeeds, silently ignoring
the extra field. -/
theorem c9_parse_counterexample :
    readTable ',' "x,a,b\ni1,1.0,2.0,99.0\n" =
      Except.ok (["i1"], ["a", "b"], [[1, 2]]) ∧
    (pyFields ',' "i1,1.0,2.0,99.0").length = 4 ∧
    (4 : ℕ) ≠ 2 + 1 := by
  refine ⟨by rfl, by rfl, by decide⟩

/-- C9 (amended): a data row with too few fields (for `ncols ≥ 1`) or with a
non-numeric observation field makes the reader fail (`IndexError` /
`ValueError`) at the offending row, with the error carrying exactly the
rows parsed before it — nothing after the offending row enters the matrix;
a row with too many fields does not fail, its extra fields are ignored. -/
theorem c9_parse_amended :
    (∀ (d : Char) (ncols : ℕ) (good : List String) (rows : List (List ℚ)),
      List.Forall₂
        (fun l r => parseObs (pyFields d l) 1 ncols = Except.ok r) good rows →
      ∀ (bad : String) (e : ParseError),
        parseObs (pyFields d bad) 1 ncols = Except.error e →
      ∀ rest : List String,
        readRows d ncols (good ++ bad :: rest) =
          Except.error (e,
            good.map (fun l => (pyFields d l).headD "") ++
              [(pyFields d bad).headD ""],
            rows)) ∧
    (∀ (fields : List String) (ncols : ℕ), 1 ≤ ncols →
      fields.length < ncols + 1 →
      ∃ err, parseObs fields 1 ncols = Except.error err) ∧
    (∀ (fields : List String) (ncols k : ℕ) (s : String), k < ncols →
      fields.get? (1 + k) = some s → pyFloat s = none →
      ∃ err, parseObs fields 1 ncols = Except.error err) := by
  exact ⟨fun d ncols good rows hg bad e hb rest =>
      readRows_append_error d ncols good rows hg bad e hb rest,
    parseObs_error_of_short, parseObs_error_of_nonnumeric⟩

/-- C9 (witness): the amended theorem on the concrete lines
`["i1,1.0,2.0", "i2,abc,3.0", "i3,9.0,9.0"]` with two columns: the read
stops at the non-numeric row `i2` with only `i1`'s data in the matrix, and
the short row `["i1"]` fails for two columns. -/
theorem c9_parse_amended_witness :
    readRows ',' 2 ["i1,1.0,2.0", "i2,abc,3.0", "i3,9.0,9.0"] =
      Except.error (ParseError.valueError, ["i1", "i2"], [[1, 2]]) ∧
    ∃ err, parseObs ["i1"] 1 2 = Except.error err :=
  ⟨c9_parse_amended.1 ',' 2 ["i1,1.0,2.0"] [[1, 2]]
      (List.Forall₂.cons (by rfl) List.Forall₂.nil)
      "i2,abc,3.0" ParseError.valueError (by rfl) ["i3,9.0,9.0"],
    c9_parse_amended.2.1 ["i1"] 2 (by decide) (by decide)⟩

lemma readRows_zero_cols (d : Char) (dl : List String) :
    readRows d 0 dl =
      Except.ok (dl.map (fun l => (pyFields d l).headD ""),
        dl.map (fun _ => ([] : List ℚ))) := by
  induction dl with
  | nil => rfl
  | cons l ls ih =>
    simp only [readRows, parseObs, ih, List.map_cons]

/-- C10: a header consisting of only the discarded first field yields zero
solver names; data lines still parse, each contributing an instance name
and an empty observation row, so the matrix is n-by-0, the
`data.shape == (0,)` guard of both programs does not fire, and the pipeline
proceeds into the numeric transform with zero columns (concretely:
`"x\ninst1\ninst2\n"` parses to two instances, no solvers and rows
`[[], []]`). -/
theorem c10_zero_columns (dl : List String) (hne : dl ≠ []) :
    readRows ',' 0 dl =
      Except.ok (dl.map (fun l => (pyFields ',' l).headD ""),
        dl.map (fun _ => ([] : List ℚ))) ∧
    perfprofEmptyGuard (dl.map (fun _ => [])) = EmptyGuardOutcome.proceed ∧
    plotEmptyGuard (dl.map (fun _ => [])) = EmptyGuardOutcome.proceed ∧
    readTable ',' "x\ninst1\ninst2\n" =
      Except.ok (["inst1", "inst2"], [], [[], []]) := by
  refine ⟨readRows_zero_cols ',' dl, ?_, ?_, by rfl⟩
  · cases dl with
    | nil => exact absurd rfl hne
    | cons l ls => rfl
  · cases dl with
    | nil => exact absurd rfl hne
    | cons l ls => rfl

/-- C10 (witness): the theorem at the two data lines
`["inst1", "inst2"]`. -/
theorem c10_zero_columns_witness :
    readRows ',' 0 ["inst1", "inst2"] =
      Except.ok (["inst1", "inst2"], [[], []]) ∧
    perfprofEmptyGuard [[], []] = EmptyGuardOutcome.proceed :=
  ⟨(c10_zero_columns ["inst1", "inst2"] (by decide)).1,
    (c10_zero_columns ["inst1", "inst2"] (by decide)).2.1⟩
